import Mathlib

/-!
Verification of the plfanzen CTF backend (manager crate) against its
natural-language specification.  The Rust sources are shallowly embedded:
pure functions become Lean functions, filesystem / cluster effects become
explicit effect lists or oracle parameters, machine integers become `Nat`
or `Int` with explicit reduction modulo `2 ^ w` where overflow matters.
-/

namespace Plfanzen

/-! ## Bytes and hex encoding

`Byte`s are `Nat`s kept below 256.  `utf8Encode` mirrors the UTF-8 encoding
used by Rust's `str::as_bytes`; `hexByte` mirrors `format!("{:02x}", b)`. -/

abbrev Byte := Nat

/-- UTF-8 encoding of a single scalar value, as Rust strings store chars. -/
def utf8Encode (c : Char) : List Byte :=
  let n := c.toNat
  if n < 0x80 then [n]
  else if n < 0x800 then
    [0xc0 + n / 64, 0x80 + n % 64]
  else if n < 0x10000 then
    [0xe0 + n / 4096, 0x80 + n / 64 % 64, 0x80 + n % 64]
  else
    [0xf0 + n / 262144, 0x80 + n / 4096 % 64, 0x80 + n / 64 % 64, 0x80 + n % 64]

/-- The bytes of a Rust `&str` (UTF-8). -/
def strBytes (s : String) : List Byte :=
  s.data.flatMap utf8Encode

/-- One lowercase hex digit, like Rust's `{:x}` on a value below 16. -/
def hexDigit (n : Nat) : Char :=
  if n < 10 then Char.ofNat (48 + n) else Char.ofNat (87 + n)

/-- `format!("{:02x}", b)` for a byte. -/
def hexByte (b : Byte) : List Char :=
  [hexDigit (b / 16 % 16), hexDigit (b % 16)]

/-- Lowercase hex encoding of a byte string. -/
def hexOfBytes (bs : List Byte) : List Char :=
  bs.flatMap hexByte

/-! ## SHA-256 and HMAC-SHA256

Embedding of the `sha2` / `hmac` crates as used by
`CtfChallengeMetadata::get_password`.  Words are `Nat`s reduced modulo
`2 ^ 32`; the digest is a list of 32 bytes. -/

/-- Reduce to a 32-bit word. -/
def w32 (n : Nat) : Nat := n % 4294967296

/-- Right rotation of a 32-bit word. -/
def rotr (s x : Nat) : Nat := w32 (x >>> s ||| x <<< (32 - s))

def bigSigma0 (x : Nat) : Nat := rotr 2 x ^^^ rotr 13 x ^^^ rotr 22 x
def bigSigma1 (x : Nat) : Nat := rotr 6 x ^^^ rotr 11 x ^^^ rotr 25 x
def smallSigma0 (x : Nat) : Nat := rotr 7 x ^^^ rotr 18 x ^^^ x >>> 3
def smallSigma1 (x : Nat) : Nat := rotr 17 x ^^^ rotr 19 x ^^^ x >>> 10
def chFn (x y z : Nat) : Nat := x &&& y ^^^ ((x ^^^ 0xffffffff) &&& z)
def majFn (x y z : Nat) : Nat := x &&& y ^^^ x &&& z ^^^ y &&& z

/-- SHA-256 round constants, in decimal. -/
def sha256K : List Nat := [
  1116352408, 1899447441, 3049323471, 3921009573, 961987163,
  1508970993, 2453635748, 2870763221, 3624381080, 310598401,
  607225278, 1426881987, 1925078388, 2162078206, 2614888103,
  3248222580, 3835390401, 4022224774, 264347078, 604807628,
  770255983, 1249150122, 1555081692, 1996064986, 2554220882,
  2821834349, 2952996808, 3210313671, 3336571891, 3584528711,
  113926993, 338241895, 666307205, 773529912, 1294757372,
  1396182291, 1695183700, 1986661051, 2177026350, 2456956037,
  2730485921, 2820302411, 3259730800, 3345764771, 3516065817,
  3600352804, 4094571909, 275423344, 430227734, 506948616,
  659060556, 883997877, 958139571, 1322822218, 1537002063,
  1747873779, 1955562222, 2024104815, 2227730452, 2361852424,
  2428436474, 2756734187, 3204031479, 3329325298]

/-- The eight 32-bit state words of the compression function. -/
structure Sha256State where
  a : Nat
  b : Nat
  c : Nat
  d : Nat
  e : Nat
  f : Nat
  g : Nat
  h : Nat
deriving DecidableEq, Repr

/-- SHA-256 initial state, in decimal. -/
def sha256H0 : Sha256State :=
  ⟨1779033703, 3144134277, 1013904242, 2773480762,
   1359893119, 2600822924, 528734635, 1541459225⟩

/-- Big-endian 64-bit length field of the padding. -/
def be64 (n : Nat) : List Byte :=
  [n >>> 56 % 256, n >>> 48 % 256, n >>> 40 % 256, n >>> 32 % 256,
   n >>> 24 % 256, n >>> 16 % 256, n >>> 8 % 256, n % 256]

/-- Merkle-Damgard padding: append 0x80, zeros to 56 mod 64, then the
message bit length, big-endian. -/
def padMessage (msg : List Byte) : List Byte :=
  let zeros := (120 - (msg.length + 1) % 64) % 64
  msg ++ 0x80 :: List.replicate zeros 0 ++ be64 (8 * msg.length)

/-- Big-endian 32-bit words from bytes. -/
def bytesToWords : List Byte → List Nat
  | b0 :: b1 :: b2 :: b3 :: rest =>
    (b0 <<< 24 + b1 <<< 16 + b2 <<< 8 + b3) :: bytesToWords rest
  | _ => []

/-- Split into 64-byte blocks. -/
def chunks64 (l : List Byte) : List (List Byte) :=
  if h : l = [] then []
  else l.take 64 :: chunks64 (l.drop 64)
termination_by l.length
decreasing_by
  simp only [List.length_drop]
  have : l.length ≠ 0 := fun hl => h (List.eq_nil_of_length_eq_zero hl)
  omega

/-- Next word of the message schedule, from the 16 preceding ones. -/
def nextW (ws : List Nat) : Nat :=
  w32 (smallSigma1 (ws.getD (ws.length - 2) 0) + ws.getD (ws.length - 7) 0 +
    smallSigma0 (ws.getD (ws.length - 15) 0) + ws.getD (ws.length - 16) 0)

/-- Extend the schedule by `n` more words. -/
def extendW (ws : List Nat) : Nat → List Nat
  | 0 => ws
  | n + 1 => extendW (ws ++ [nextW ws]) n

/-- One round of the compression function. -/
def compressStep (st : Sha256State) (kw : Nat × Nat) : Sha256State :=
  let t1 := w32 (st.h + bigSigma1 st.e + chFn st.e st.f st.g + kw.1 + kw.2)
  let t2 := w32 (bigSigma0 st.a + majFn st.a st.b st.c)
  ⟨w32 (t1 + t2), st.a, st.b, st.c, w32 (st.d + t1), st.e, st.f, st.g⟩

/-- Process one 64-byte block. -/
def processBlock (st : Sha256State) (block : List Byte) : Sha256State :=
  let ws := extendW (bytesToWords block) 48
  let t := (sha256K.zip ws).foldl compressStep st
  ⟨w32 (st.a + t.a), w32 (st.b + t.b), w32 (st.c + t.c), w32 (st.d + t.d),
   w32 (st.e + t.e), w32 (st.f + t.f), w32 (st.g + t.g), w32 (st.h + t.h)⟩

/-- A 32-bit word as four big-endian bytes. -/
def wordBytes (n : Nat) : List Byte :=
  [n >>> 24 % 256, n >>> 16 % 256, n >>> 8 % 256, n % 256]

/-- SHA-256 of a byte string. -/
def sha256 (msg : List Byte) : List Byte :=
  let st := (chunks64 (padMessage msg)).foldl processBlock sha256H0
  wordBytes st.a ++ wordBytes st.b ++ wordBytes st.c ++ wordBytes st.d ++
  wordBytes st.e ++ wordBytes st.f ++ wordBytes st.g ++ wordBytes st.h

/-- HMAC key normalization: hash keys longer than the 64-byte block, then
pad with zeros to the block size. -/
def blockSizedKey (key : List Byte) : List Byte :=
  let k := if 64 < key.length then sha256 key else key
  k ++ List.replicate (64 - k.length) 0

/-- HMAC-SHA256. -/
def hmacSha256 (key msg : List Byte) : List Byte :=
  let k := blockSizedKey key
  sha256 (k.map (· ^^^ 0x5c) ++ sha256 (k.map (· ^^^ 0x36) ++ msg))

/-! ## get_password (src/crates/manager/src/repo/challenges/metadata.rs)

The key is the `HMAC_SECRET_KEY` environment value when present, else the
bytes of the literal flag or of the validation script body; the streaming
`Mac` of the hmac crate is modelled as a buffer that `update` appends to. -/

/-- The flattened `FlagValidator` enum of the challenge metadata. -/
inductive FlagValidator where
  | string (flag : String)
  | jsFunction (flag_validation_fn : String)
deriving DecidableEq, Repr

/-- Key selection at the top of `get_password`. -/
def hmacKeyOf (env_key : Option String) (v : FlagValidator) : List Byte :=
  match env_key with
  | some k => strBytes k
  | none =>
    match v with
    | .string flag => strBytes flag
    | .jsFunction body => strBytes body

/-- The incremental state of `Hmac::<Sha256>`. -/
structure MacState where
  key : List Byte
  buffered : List Byte

def macInit (key : List Byte) : MacState := ⟨key, []⟩

def macUpdate (st : MacState) (bs : List Byte) : MacState :=
  ⟨st.key, st.buffered ++ bs⟩

def macFinalize (st : MacState) : List Byte :=
  hmacSha256 st.key st.buffered

/-- `get_password`: three `update` calls (actor, instance id, purpose),
finalize, hex-encode, keep the first 16 hex characters. -/
def get_password (env_key : Option String) (v : FlagValidator)
    (actor instance_id password_id : String) : String :=
  let mac := macInit (hmacKeyOf env_key v)
  let mac := macUpdate mac (strBytes actor)
  let mac := macUpdate mac (strBytes instance_id)
  let mac := macUpdate mac (strBytes password_id)
  ⟨(hexOfBytes (macFinalize mac)).take 16⟩

/-! ## Instance lifecycle (src/crates/manager/src/instances.rs)

States and the pod-based readiness computation, from `is_instance_running`
and `get_instances`. -/

inductive InstanceState where
  | Creating
  | Running
  | Terminating
deriving DecidableEq, Repr

/-- `pod.status.phase` as the Rust code sees it: the pod may lack a status,
and the status may lack a phase. -/
structure PodStatus where
  phase : Option String
deriving DecidableEq, Repr

structure Pod where
  status : Option PodStatus
deriving DecidableEq, Repr

/-- One pod is acceptable when its phase is present and Running or Succeeded
(the loop body of `is_instance_running`). -/
def podOk (p : Pod) : Bool :=
  match p.status with
  | none => false
  | some st =>
    match st.phase with
    | none => false
    | some phase => phase == "Running" || phase == "Succeeded"

/-- `is_instance_running`: false when the namespace holds no pods, else true
iff every pod is Running or Succeeded. -/
def is_instance_running (pods : List Pod) : Bool :=
  if pods.isEmpty then false
  else pods.all podOk

/-- Namespace metadata relevant to state classification in `get_instances`. -/
structure NsMeta where
  deletionTimestamp : Option String
  statusPhase : Option String
deriving DecidableEq, Repr

/-- The state classification of one namespace in `get_instances`:
Terminating when a deletion timestamp is set or the namespace phase is
Terminating, else Running per `is_instance_running`, else Creating. -/
def instance_state (ns : NsMeta) (pods : List Pod) : InstanceState :=
  if ns.deletionTimestamp.isSome || ns.statusPhase == some "Terminating" then
    .Terminating
  else if is_instance_running pods then
    .Running
  else
    .Creating

/-! ## prepare_instance (src/crates/manager/src/instances.rs)

The cluster is abstracted to the list of instance states returned by
`get_instances`, a predicate telling which namespace names already exist,
and a stream of candidate 12-hex suffixes standing for the RNG draws. -/

inductive PrepError where
  | tooManyPending
  | alreadyActive
  | outOfFuel
deriving DecidableEq, Repr

/-- The namespace name format used throughout instances.rs. -/
def instanceNsName (challenge_id suffix : String) : String :=
  "challenge-" ++ challenge_id ++ "-instance-" ++ suffix

/-- The labels put on a fresh instance namespace. -/
def instanceLabels (challenge_id actor_id : String) : List (String × String) :=
  [("challenge_id", challenge_id), ("actor_id", actor_id)]

/-- The name-drawing loop at the end of `prepare_instance`: draw a suffix,
retry while the namespace already exists.  `taken` is the cluster's
`get_opt(..).is_some()`; `draw` is the RNG stream; fuel bounds the model. -/
def drawLoop (challenge_id : String) (taken : String → Bool) (draw : Nat → String) :
    Nat → Nat → Option String
  | 0, _ => none
  | fuel + 1, i =>
    if taken (instanceNsName challenge_id (draw i)) then
      drawLoop challenge_id taken draw fuel (i + 1)
    else some (instanceNsName challenge_id (draw i))

/-- `prepare_instance`: quota check first (all listed instances count,
Terminating included), then the already-active check, then namespace
creation with the two labels. -/
def prepare_instance (instances : List InstanceState) (challenge_id actor_id : String)
    (taken : String → Bool) (draw : Nat → String) (fuel : Nat) :
    Except PrepError (String × List (String × String)) :=
  if instances.length ≥ 5 then
    .error .tooManyPending
  else if instances.any (fun state => state == .Running || state == .Creating) then
    .error .alreadyActive
  else
    match drawLoop challenge_id taken draw fuel 0 with
    | none => .error .outOfFuel
    | some name => .ok (name, instanceLabels challenge_id actor_id)

/-! ## CheckFlag scan (src/crates/manager/src/grpc/challenges.rs)

Flag validation of one challenge is abstracted to its outcome; the scan
logic of `check_flag` is embedded as written: break on the first accepting
challenge, surface a validation error only when the total number of loaded
challenges is 1, otherwise log and continue. -/

inductive FlagOutcome where
  | accept
  | reject
  | failure
deriving DecidableEq, Repr

/-- The loop of `check_flag`; `total` is `challenges.len()` of the original
collection, fixed before the loop starts. -/
def checkFlagLoop (total : Nat) : List (String × FlagOutcome) → Except String (Option String)
  | [] => .ok none
  | (id, .accept) :: _ => .ok (some id)
  | (_, .reject) :: rest => checkFlagLoop total rest
  | (id, .failure) :: rest =>
    if total == 1 then .error id else checkFlagLoop total rest

/-- `check_flag` over the loaded challenge collection (its iteration order is
arbitrary; the model takes one order as a list). -/
def check_flag (challs : List (String × FlagOutcome)) : Except String (Option String) :=
  checkFlagLoop challs.length challs

/-! ## calculate_points (src/crates/manager/src/repo/event_config.rs)

The boa engine run is abstracted to its outcome: the script evaluation can
throw, can finish without registering a points function, the registered
function can throw when called, and otherwise its return value either is an
`i32` (boa's `as_i32`) or is not. -/

inductive ScriptOutcome where
  | evalThrew
  | fnNotSet
  | callThrew
  | returnedI32 (n : Int)
  | returnedNonInt
deriving DecidableEq, Repr

/-- `points as u32` in Rust: reinterpret the i32 modulo `2 ^ 32`. -/
def i32AsU32 (n : Int) : Nat :=
  (n % 4294967296).toNat

/-- `calculate_points`: 100 when the event has no scoring script, otherwise
the outcome of the sandboxed run, with a successful `as_i32` result cast
`as u32`. -/
def calculate_points (points_fn : Option ScriptOutcome) : Except String Nat :=
  match points_fn with
  | none => .ok 100
  | some .evalThrew => .error "script evaluation failed"
  | some .fnNotSet => .error "Points function not set"
  | some .callThrew => .error "points function call failed"
  | some .returnedNonInt => .error "Points function did not return a number"
  | some (.returnedI32 n) => .ok (i32AsU32 n)

/-! ## Recursive template rendering
(src/crates/manager/src/repo/challenges/loader/tera.rs)

Paths are component lists.  The filesystem is an oracle: `canon` is
`std::fs::canonicalize` (total on the walked entries), `children` is
`read_dir`, `kind` classifies after following symlinks like `is_dir` /
`is_file` do, and `renderOk` tells whether `process_template` succeeds.
The function returns the list of filesystem effects it performed, in
order, together with the error that stopped it, if any; fuel bounds the
recursion of the model. -/

abbrev FsPath := List String

/-- Rust `Path::starts_with`: component-wise prefix. -/
def pathStartsWith (base p : FsPath) : Bool :=
  match base, p with
  | [], _ => true
  | _ :: _, [] => false
  | b :: bs, x :: xs => b == x && pathStartsWith bs xs

inductive FKind where
  | dir
  | file
  | otherKind
deriving DecidableEq, Repr

structure Fs where
  canon : FsPath → FsPath
  children : FsPath → List String
  kind : FsPath → FKind
  renderOk : FsPath → Bool

inductive RenderEff where
  | mkdirAll (p : FsPath)
  | writeFile (p : FsPath)
  | copyFile (src dst : FsPath)
  | readTemplate (p : FsPath)
deriving DecidableEq, Repr

inductive RenderErr where
  | pathEscape
  | templateFailed
  | outOfFuel
deriving DecidableEq, Repr

/-- Rust `Path::extension` on a file name: the part after the last dot,
absent for names without a dot or with only a leading dot. -/
def fileExtension (name : String) : Option String :=
  match name.splitOn "." with
  | [] => none
  | [_] => none
  | ["", _] => none
  | parts => parts.getLast?

/-- Rust `Path::with_extension("")` on a file name: drop the extension and
its dot. -/
def dropExtension (name : String) : String :=
  match fileExtension name with
  | none => name
  | some ext => name.dropRight (ext.length + 1)

/-- The walk of `render_dir_recursively` over the pending entry names of
`src`.  Per entry: canonicalize, fail with a path-traversal error unless
the canonical path starts with the canonical source root, skip the root
itself, then mirror directories (recursing) and render `.plftera`
templates or byte-copy other files.  Fuel is consumed at every step. -/
def renderGo (fs : Fs) : Nat → FsPath → FsPath → List String → List RenderEff × Option RenderErr
  | 0, _, _, _ => ([], some .outOfFuel)
  | _ + 1, _, _, [] => ([], none)
  | fuel + 1, src, dst, name :: rest =>
    if pathStartsWith (fs.canon src) (fs.canon (src ++ [name])) then
      if fs.canon (src ++ [name]) = fs.canon src then
        renderGo fs fuel src dst rest
      else
        match fs.kind (src ++ [name]) with
        | .dir =>
          match renderGo fs fuel (src ++ [name]) (dst ++ [name])
              (fs.children (src ++ [name])) with
          | (effs, some e) => (RenderEff.mkdirAll (dst ++ [name]) :: effs, some e)
          | (effs, none) =>
            (RenderEff.mkdirAll (dst ++ [name]) :: effs ++ (renderGo fs fuel src dst rest).1,
             (renderGo fs fuel src dst rest).2)
        | .file =>
          if fileExtension name = some "plftera" then
            if fs.renderOk (src ++ [name]) then
              (RenderEff.readTemplate (src ++ [name]) ::
                RenderEff.writeFile (dst ++ [dropExtension name]) ::
                (renderGo fs fuel src dst rest).1,
               (renderGo fs fuel src dst rest).2)
            else
              ([RenderEff.readTemplate (src ++ [name])], some .templateFailed)
          else
            (RenderEff.copyFile (src ++ [name]) (dst ++ [name]) ::
              (renderGo fs fuel src dst rest).1,
             (renderGo fs fuel src dst rest).2)
        | .otherKind => renderGo fs fuel src dst rest
    else
      ([], some .pathEscape)

/-- `render_dir_recursively(source_dir, dest_dir, ..)`. -/
def render_dir_recursively (fs : Fs) (fuel : Nat) (src dst : FsPath) :
    List RenderEff × Option RenderErr :=
  renderGo fs fuel src dst (fs.children src)

/-- The destination path an effect writes to, if it writes. -/
def effWriteTarget : RenderEff → Option FsPath
  | .mkdirAll p => some p
  | .writeFile p => some p
  | .copyFile _ d => some d
  | .readTemplate _ => none

/-- The source path an effect reads from, if it reads. -/
def effReadSource : RenderEff → Option FsPath
  | .copyFile s _ => some s
  | .readTemplate p => some p
  | _ => none

/-- A filesystem with one entry under the source root whose canonical path
is a symlink escape. -/
def escFs : Fs where
  canon p := if p = ["s", "evil"] then ["outside", "secret"] else p
  children p := if p = ["s"] then ["evil"] else []
  kind _ := .file
  renderOk _ := true

/-! ## Export safe-pack (src/crates/manager/src/repo/challenges/dir_packer.rs)

The ignore-aware walker of the `ignore` crate is abstracted to the list
of entries it yields (paths relative to the source dir; `[]` is the root
itself).  Compose parsing and re-serialization are modelled structurally:
a file content either parses as a compose document or is raw bytes. -/

structure CtfMetadataDoc where
  flag : Option String
  flag_validation_fn : Option String
  otherFields : List (String × String)
deriving DecidableEq, Repr

structure ComposeDoc where
  ctf_metadata : Option CtfMetadataDoc
  otherContent : List (String × String)
deriving DecidableEq, Repr

inductive FileContent where
  | composeDoc (c : ComposeDoc)
  | raw (s : String)
deriving DecidableEq, Repr

inductive WalkKind where
  | file (content : FileContent)
  | dir
deriving DecidableEq, Repr

structure WalkEntry where
  rel : FsPath
  kind : WalkKind
deriving DecidableEq, Repr

inductive TarItem where
  | fileData (rel : FsPath) (content : FileContent)
  | dirItem (rel : FsPath)
deriving DecidableEq, Repr

inductive PackError where
  | composeParse
deriving DecidableEq, Repr

/-- Clearing of the two flag-bearing metadata fields before re-emission. -/
def sanitizeMetadata (md : CtfMetadataDoc) : CtfMetadataDoc :=
  { md with flag := none, flag_validation_fn := none }

/-- The `extensions.get_mut("x-ctf-metadata")` mutation: clear the fields
when the extension is present, leave the document alone otherwise. -/
def sanitizeCompose (c : ComposeDoc) : ComposeDoc :=
  match c.ctf_metadata with
  | some md => { c with ctf_metadata := some (sanitizeMetadata md) }
  | none => c

/-- The entry loop of `safe_pack_challenge`: skip the root, the root-level
`_plfanzen` directory and any `.plfignore` file; for the top-level
`docker-compose.yml` append the sanitized re-serialization and then fall
through to `append_path_with_name`, which appends the original file as
well; append every other file and directory as-is. -/
def safe_pack_go : List WalkEntry → Except PackError (List TarItem)
  | [] => .ok []
  | e :: rest =>
    if e.rel = [] ∨ e.rel = ["_plfanzen"] then
      safe_pack_go rest
    else if e.rel.getLast? = some ".plfignore" then
      safe_pack_go rest
    else
      match e.kind with
      | .file content =>
        if e.rel = ["docker-compose.yml"] then
          match content with
          | .raw _ => .error .composeParse
          | .composeDoc c =>
            (safe_pack_go rest).map fun items =>
              TarItem.fileData e.rel (.composeDoc (sanitizeCompose c)) ::
              TarItem.fileData e.rel content :: items
        else
          (safe_pack_go rest).map fun items => TarItem.fileData e.rel content :: items
      | .dir =>
        (safe_pack_go rest).map fun items => TarItem.dirItem e.rel :: items

/-- `safe_pack_challenge` over the walker's entry stream. -/
def safe_pack_challenge (entries : List WalkEntry) : Except PackError (List TarItem) :=
  safe_pack_go entries

/-- Whether a tar item is a `docker-compose.yml` entry whose metadata still
carries a literal flag or a validation-script body. -/
def tarItemLeaksFlag : TarItem → Bool
  | .fileData rel (.composeDoc c) =>
    rel == ["docker-compose.yml"] &&
      (match c.ctf_metadata with
       | some md => md.flag.isSome || md.flag_validation_fn.isSome
       | none => false)
  | _ => false

/-- A challenge directory whose top-level compose file carries a literal
flag in its metadata. -/
def demoCompose : ComposeDoc :=
  ⟨some ⟨some "FLAG-demo-1234", none, [("name", "Demo")]⟩, [("services", "web")]⟩

def demoEntries : List WalkEntry :=
  [⟨[], .dir⟩, ⟨["docker-compose.yml"], .file (.composeDoc demoCompose)⟩]

/-! ## Repository sync (src/crates/manager/src/repo/git.rs)

`sync_repo` is embedded as a sequence over an abstract destination state;
each fallible step gets a success flag in the oracle.  `damaged` stands
for any state that is neither the intact previous tree nor the complete
new one (`remove_dir_all` or `copy_dir_recursively` stopped midway). -/

inductive DestState where
  | absent
  | full (tree : Nat)
  | damaged
deriving DecidableEq, Repr

inductive GitSyncError where
  | cloneFailed
  | ioError
  | dirExists
deriving DecidableEq, Repr

structure SyncWorld where
  destHasGit : Bool
  dest : DestState
  destNonEmpty : Bool
  cloneOk : Bool
  removeOk : Bool
  renameOk : Bool
  copyOk : Bool
  newTree : Nat
deriving DecidableEq, Repr

/-- `sync_repo(repo_dir, git_url, git_branch)`: when `dest/.git` exists,
clone to a temp dir, then `remove_dir_all(dest)`, then rename with a
recursive-copy fallback; otherwise refuse a non-empty destination and
clone directly into it.  Returns the call result and the final state of
`dest`. -/
def sync_repo (w : SyncWorld) : Except GitSyncError Unit × DestState :=
  if w.destHasGit then
    if w.cloneOk then
      if w.removeOk then
        if w.renameOk then (.ok (), .full w.newTree)
        else if w.copyOk then (.ok (), .full w.newTree)
        else (.error .ioError, .damaged)
      else (.error .ioError, .damaged)
    else (.error .cloneFailed, w.dest)
  else
    if w.dest ≠ .absent ∧ w.destNonEmpty then (.error .dirExists, w.dest)
    else if w.cloneOk then (.ok (), .full w.newTree)
    else (.error .cloneFailed, .damaged)

/-- A run in which the clone succeeds, the old tree is removed, and then
both the rename and the copy fallback fail. -/
def renameCopyFailWorld : SyncWorld :=
  ⟨true, .full 7, true, true, true, false, false, 9⟩

/-! ## SSH gateway emission
(src/crates/manager/src/repo/challenges/compose/service/ssh.rs and
src/crates/manager/src/instances/deploy.rs)

Ports are in compose long form; extension values are abstracted to
string-or-other, mirroring `serde_yaml::Value::as_str`. -/

inductive YamlVal where
  | str (s : String)
  | otherVal
deriving DecidableEq, Repr

def yamlAsStr : YamlVal → Option String
  | .str s => some s
  | .otherVal => none

inductive PortProtocol where
  | tcp
  | udp
  | otherProto
deriving DecidableEq, Repr

structure PortLong where
  target : Nat
  published : Option Nat
  protocol : Option PortProtocol
  app_protocol : Option String
  extensions : List (String × YamlVal)
deriving DecidableEq, Repr

def extGet (exts : List (String × YamlVal)) (k : String) : Option YamlVal :=
  (exts.find? (fun p => p.1 == k)).map Prod.snd

structure ComposeService where
  ports : List PortLong
deriving DecidableEq, Repr

structure SSHGatewaySpec where
  backend_service : String
  backend_port : Nat
  backend_username : String
  backend_password : String
  gateway_password : Option String
deriving DecidableEq, Repr

structure SSHGateway where
  name : String
  spec : SSHGatewaySpec
deriving DecidableEq, Repr

/-- ASCII lowering, as `str::to_lowercase` behaves on ASCII protocol
names. -/
def toLowerAscii (s : String) : String :=
  ⟨s.data.map Char.toLower⟩

def isTcpOrUnset : Option PortProtocol → Bool
  | none => true
  | some .tcp => true
  | some .udp => false
  | some .otherProto => false

/-- `as_ssh_gateways`: one CR per tcp port marked `ssh` that declares
string `x-username` and `x-password` extensions; named
`<id>-<published-or-target>`, with `backend_service` set to the service
id and `backend_port` to the container-side target port. -/
def as_ssh_gateways (svc : ComposeService) (id : String) (ssh_password : Option String) :
    List SSHGateway :=
  svc.ports.filterMap fun port =>
    let is_ssh := (match port.app_protocol with
      | some proto => toLowerAscii proto == "ssh"
      | none => false) && isTcpOrUnset port.protocol
    if is_ssh then
      match (extGet port.extensions "x-username").bind yamlAsStr with
      | none => none
      | some username =>
        match (extGet port.extensions "x-password").bind yamlAsStr with
        | none => none
        | some password =>
          some ⟨id ++ "-" ++ toString (port.published.getD port.target),
            ⟨id, port.target, username, password, ssh_password⟩⟩
    else none

/-- The per-service gateway emission of `deploy_challenge`, which passes
the derived `get_password(actor, instance_id, "ssh")` as the gateway
password. -/
def deploy_ssh_gateways (services : List (String × ComposeService))
    (env_key : Option String) (v : FlagValidator) (actor instance_id : String) :
    List SSHGateway :=
  services.flatMap fun sp =>
    as_ssh_gateways sp.2 sp.1 (some (get_password env_key v actor instance_id "ssh"))

/-- The service of scenario S4: one ssh-marked tcp port 22 published at
22022 with gateway credentials. -/
def webPort : PortLong :=
  ⟨22, some 22022, some .tcp, some "ssh",
    [("x-username", .str "ctf"), ("x-password", .str "p")]⟩

def webService : ComposeService := ⟨[webPort]⟩

/-! ## RetrieveFile (src/crates/manager/src/grpc/challenges.rs)

The rendered challenge load, the template render and the final file read
are oracle outcomes; the embedding keeps the order of the checks and
reports whether the requested file was read. -/

inductive RpcStatus where
  | invalidArgument (msg : String)
  | notFoundStatus (msg : String)
  | permissionDeniedStatus (msg : String)
  | internalStatus (msg : String)
deriving DecidableEq, Repr

structure RetrieveMeta where
  attachments : List String
  release_time : Option Nat
deriving DecidableEq, Repr

structure RetrieveWorld where
  load_result : Except String RetrieveMeta
  render_ok : Bool
  read_result : Option (List Byte)
deriving Repr

/-- The release gate shared by several RPCs: blocked when release is
required and the release time lies in the future. -/
def releaseBlocked (require_release : Bool) (release_time : Option Nat) (now : Nat) : Bool :=
  require_release &&
    match release_time with
    | some rt => decide (now < rt)
    | none => false

/-- `retrieve_file`: load, release gate, render, then the attachment
allowlist check — answered with a not-found status — and only then the
read of the requested file.  The boolean records whether that read was
attempted. -/
def retrieve_file (w : RetrieveWorld) (challenge_id filename : String)
    (require_release : Bool) (now : Nat) : Except RpcStatus (List Byte) × Bool :=
  match w.load_result with
  | .error e => (.error (.internalStatus e), false)
  | .ok md =>
    if releaseBlocked require_release md.release_time now then
      (.error (.permissionDeniedStatus ("Challenge " ++ challenge_id ++
        " has not been released yet")), false)
    else if w.render_ok then
      if filename ∈ md.attachments then
        match w.read_result with
        | some bytes => (.ok bytes, true)
        | none => (.error (.internalStatus "read failed"), true)
      else
        (.error (.notFoundStatus ("File " ++ filename ++ " not found in challenge " ++
          challenge_id)), false)
    else
      (.error (.internalStatus "render failed"), false)

/-- A loaded challenge whose attachment allowlist does not contain the
requested file. -/
def demoRetrieveWorld : RetrieveWorld :=
  ⟨.ok ⟨["handout.zip"], none⟩, true, some [1, 2, 3]⟩

/-- A filesystem without symlinks: one mirrored subdirectory under the
root. -/
def plainFs : Fs where
  canon p := p
  children p := if p = ["s"] then ["x"] else []
  kind _ := .dir
  renderOk _ := true

/-! # Theorems -/

theorem hexOfBytes_length (bs : List Byte) : (hexOfBytes bs).length = 2 * bs.length := by
  induction bs with
  | nil => rfl
  | cons b rest ih =>
    simp [hexOfBytes, hexByte] at ih ⊢
    omega

theorem sha256_length (msg : List Byte) : (sha256 msg).length = 32 := by
  simp [sha256, wordBytes]

theorem hmacSha256_length (key msg : List Byte) : (hmacSha256 key msg).length = 32 :=
  sha256_length _

/-- C6: `get_password(actor, instance_id, purpose)` equals the first 16 hex
characters of `HMAC-SHA256(key, actor || instance_id || purpose)` with the
key chosen as the `HMAC_SECRET_KEY` environment value when set and the
flag or script bytes otherwise; the result is 16 characters long, and with
the environment key set it does not depend on the challenge data, hence is
stable across restarts for a fixed key. -/
theorem get_password_spec (env_key : Option String) (v w : FlagValidator)
    (actor instance_id password_id : String) :
    get_password env_key v actor instance_id password_id =
      ⟨(hexOfBytes (hmacSha256 (hmacKeyOf env_key v)
        (strBytes actor ++ strBytes instance_id ++ strBytes password_id))).take 16⟩ ∧
    (get_password env_key v actor instance_id password_id).length = 16 ∧
    (∀ k, env_key = some k →
      get_password env_key v actor instance_id password_id =
        get_password env_key w actor instance_id password_id) := by
  refine ⟨?_, ?_, ?_⟩
  · simp [get_password, macInit, macUpdate, macFinalize, List.append_assoc]
  · simp [get_password, macInit, macUpdate, macFinalize, String.length,
      hexOfBytes_length, hmacSha256_length]
  · intro k hk
    subst hk
    rfl

/-- Witness for C6 at concrete inputs: the password does not depend on the
validator when the secret key is set, and has length 16. -/
theorem get_password_spec_witness :
    get_password (some "sekrit") (.string "flagA") "user-a" "ab12cd34ef56" "ssh" =
      get_password (some "sekrit") (.jsFunction "codeB") "user-a" "ab12cd34ef56" "ssh" ∧
    (get_password (some "sekrit") (.string "flagA") "user-a" "ab12cd34ef56" "ssh").length = 16 :=
  ⟨(get_password_spec (some "sekrit") (.string "flagA") (.jsFunction "codeB")
      "user-a" "ab12cd34ef56" "ssh").2.2 "sekrit" rfl,
   (get_password_spec (some "sekrit") (.string "flagA") (.jsFunction "codeB")
      "user-a" "ab12cd34ef56" "ssh").2.1⟩

/-- C9: a namespace with an empty pod list is never Running — the state is
Creating unless the namespace is being deleted — and the Running state
requires at least one pod with every pod phase Running or Succeeded; the
all-pods condition is not vacuously satisfied by zero pods. -/
theorem instance_state_empty_pods (ns : NsMeta) (pods : List Pod) :
    (pods = [] → instance_state ns pods ≠ .Running) ∧
    (pods = [] → ns.deletionTimestamp = none → ns.statusPhase ≠ some "Terminating" →
      instance_state ns pods = .Creating) ∧
    (instance_state ns pods = .Running → pods ≠ [] ∧ pods.all podOk = true) := by
  refine ⟨?_, ?_, ?_⟩
  · intro h
    subst h
    unfold instance_state
    split
    · simp
    · simp [is_instance_running]
  · intro h hdel hphase
    subst h
    have hb : (ns.statusPhase == some "Terminating") = false := by
      simpa [beq_iff_eq] using hphase
    simp [instance_state, is_instance_running, hdel, hb]
  · intro h
    unfold instance_state at h
    split at h
    · simp at h
    · split at h
      · rename_i hrun
        unfold is_instance_running at hrun
        split at hrun
        · simp at hrun
        · rename_i hne
          refine ⟨?_, hrun⟩
          simpa [List.isEmpty_iff] using hne
      · simp at h

/-- Witness for C9: a live namespace with no pods is Creating, not
Running. -/
theorem instance_state_empty_pods_witness :
    instance_state ⟨none, none⟩ [] = InstanceState.Creating ∧
    instance_state ⟨none, none⟩ [] ≠ InstanceState.Running :=
  ⟨(instance_state_empty_pods ⟨none, none⟩ []).2.1 rfl rfl (by decide),
   (instance_state_empty_pods ⟨none, none⟩ []).1 rfl⟩

/-- C10: when the scoring script's captured function returns a negative
i32 `n`, `calculate_points` does not error but returns `n` reinterpreted
modulo `2 ^ 32` (`-1` yields 4294967295); an error is raised exactly when
the sandboxed run does not produce an integer return — no function
registered, a throw, or a non-integer value — and without a script the
result is 100. -/
theorem calculate_points_spec :
    (∀ n : Int, -2147483648 ≤ n → n < 0 →
      calculate_points (some (.returnedI32 n)) = .ok ((n + 4294967296).toNat)) ∧
    calculate_points (some (.returnedI32 (-1))) = .ok 4294967295 ∧
    (∀ o : ScriptOutcome,
      (∃ m, calculate_points (some o) = .error m) ↔ ∀ n : Int, o ≠ .returnedI32 n) ∧
    calculate_points none = .ok 100 := by
  refine ⟨?_, ?_, ?_, rfl⟩
  · intro n h1 h2
    simp only [calculate_points, i32AsU32, Except.ok.injEq]
    congr 1
    omega
  · have h1 : i32AsU32 (-1) = 4294967295 := by
      unfold i32AsU32
      norm_num
      rfl
    simp [calculate_points, h1]
  · intro o
    cases o <;> simp [calculate_points]

/-- Witness for C10: minus five scores as 4294967291. -/
theorem calculate_points_spec_witness :
    calculate_points (some (.returnedI32 (-5))) = .ok (((-5 : Int) + 4294967296).toNat) :=
  calculate_points_spec.1 (-5) (by norm_num) (by norm_num)

/-- The namespace-name loop only ever returns a drawn, unused name. -/
theorem drawLoop_sound (challenge_id : String) (taken : String → Bool) (draw : Nat → String) :
    ∀ fuel i name, drawLoop challenge_id taken draw fuel i = some name →
      (∃ j, name = instanceNsName challenge_id (draw j)) ∧ taken name = false := by
  intro fuel
  induction fuel with
  | zero => intro i name h; simp [drawLoop] at h
  | succ fuel ih =>
    intro i name h
    unfold drawLoop at h
    split at h
    · exact ih (i + 1) name h
    · rename_i htaken
      cases h
      exact ⟨⟨i, rfl⟩, by simpa using htaken⟩

/-- C5: `prepare_instance` fails with the quota error whenever the listed
instances number five or more, Terminating ones included; after the quota
check it fails with the already-active error whenever any listed instance
is Running or Creating; and it returns successfully only when both checks
pass, creating a namespace with a fresh drawn name carrying the
`challenge_id` and `actor_id` labels. -/
theorem prepare_instance_spec (instances : List InstanceState) (challenge_id actor_id : String)
    (taken : String → Bool) (draw : Nat → String) (fuel : Nat) :
    (5 ≤ instances.length →
      prepare_instance instances challenge_id actor_id taken draw fuel =
        .error .tooManyPending) ∧
    (instances.length < 5 → (∃ s ∈ instances, s = .Running ∨ s = .Creating) →
      prepare_instance instances challenge_id actor_id taken draw fuel =
        .error .alreadyActive) ∧
    (∀ name labels,
      prepare_instance instances challenge_id actor_id taken draw fuel = .ok (name, labels) →
      instances.length < 5 ∧
      (∀ s ∈ instances, s ≠ .Running ∧ s ≠ .Creating) ∧
      labels = instanceLabels challenge_id actor_id ∧
      (∃ j, name = instanceNsName challenge_id (draw j)) ∧ taken name = false) := by
  refine ⟨?_, ?_, ?_⟩
  · intro h
    simp [prepare_instance, h]
  · intro hlt hex
    have hany : (instances.any fun state => state == .Running || state == .Creating) = true := by
      rcases hex with ⟨s, hs, hcase⟩
      simp only [List.any_eq_true]
      exact ⟨s, hs, by rcases hcase with h | h <;> simp [h]⟩
    simp [prepare_instance, Nat.not_le.mpr hlt, hany]
  · intro name labels h
    unfold prepare_instance at h
    split at h
    · simp at h
    · rename_i hlen
      split at h
      · simp at h
      · rename_i hany
        refine ⟨by omega, ?_, ?_⟩
        · intro s hs
          simp only [List.any_eq_true, not_exists, not_and] at hany
          have := hany s hs
          constructor <;> intro heq <;> simp [heq] at this
        · cases hdl : drawLoop challenge_id taken draw fuel 0 with
          | none => rw [hdl] at h; simp at h
          | some dname =>
            rw [hdl] at h
            simp only [Except.ok.injEq, Prod.mk.injEq] at h
            obtain ⟨hname, hlabels⟩ := h
            subst hname
            have hs := drawLoop_sound challenge_id taken draw fuel 0 dname hdl
            exact ⟨hlabels.symm, hs.1, hs.2⟩

/-- Witness for C5: five Terminating instances exhaust the quota, and one
Running instance blocks a sixth start. -/
theorem prepare_instance_spec_witness :
    prepare_instance [.Terminating, .Terminating, .Terminating, .Terminating, .Terminating]
      "chall" "user-a" (fun _ => false) (fun _ => "aaaabbbbcccc") 1 = .error .tooManyPending ∧
    prepare_instance [.Running] "chall" "user-a" (fun _ => false) (fun _ => "aaaabbbbcccc") 1 =
      .error .alreadyActive :=
  ⟨(prepare_instance_spec [.Terminating, .Terminating, .Terminating, .Terminating, .Terminating]
      "chall" "user-a" (fun _ => false) (fun _ => "aaaabbbbcccc") 1).1 (by decide),
   (prepare_instance_spec [.Running] "chall" "user-a" (fun _ => false)
      (fun _ => "aaaabbbbcccc") 1).2.1 (by decide) ⟨.Running, by decide, Or.inl rfl⟩⟩

/-- When a unique accepting challenge exists and failures can only occur
in collections of size other than one, the scan returns its id. -/
theorem checkFlagLoop_finds (id : String) :
    ∀ (l : List (String × FlagOutcome)) (total : Nat),
      l.filter (fun p => p.2 == FlagOutcome.accept) = [(id, FlagOutcome.accept)] →
      (total = 1 → ∀ p ∈ l, p.2 ≠ FlagOutcome.failure) →
      checkFlagLoop total l = .ok (some id) := by
  intro l
  induction l with
  | nil => intro total h _; simp at h
  | cons hd rest ih =>
    intro total hfilter hnofail
    obtain ⟨i, o⟩ := hd
    cases o with
    | accept =>
      simp only [List.filter_cons,
        show ((i, FlagOutcome.accept).2 == FlagOutcome.accept) = true from rfl, if_true,
        List.cons.injEq, Prod.mk.injEq, and_true, true_and] at hfilter
      obtain ⟨hi, _⟩ := hfilter
      subst hi
      rfl
    | reject =>
      simp only [List.filter_cons] at hfilter
      simp only [show ((i, FlagOutcome.reject).2 == FlagOutcome.accept) = false from rfl,
        Bool.false_eq_true, if_false] at hfilter
      exact ih total hfilter (fun h1 p hp => hnofail h1 p (List.mem_cons_of_mem _ hp))
    | failure =>
      have htot : total ≠ 1 := by
        intro h1
        exact hnofail h1 (i, .failure) (List.mem_cons_self _ _) rfl
      simp only [List.filter_cons] at hfilter
      simp only [show ((i, FlagOutcome.failure).2 == FlagOutcome.accept) = false from rfl,
        Bool.false_eq_true, if_false] at hfilter
      unfold checkFlagLoop
      simp only [show (total == 1) = false by simpa using htot, Bool.false_eq_true, if_false]
      exact ih total hfilter (fun h1 => absurd h1 htot)

/-- The scan never surfaces an error when the collection size is not
one. -/
theorem checkFlagLoop_no_error (e : String) :
    ∀ (l : List (String × FlagOutcome)) total, total ≠ 1 →
      checkFlagLoop total l ≠ .error e := by
  intro l
  induction l with
  | nil => intro total _ h; simp [checkFlagLoop] at h
  | cons hd rest ih =>
    intro total htot h
    obtain ⟨i, o⟩ := hd
    cases o with
    | accept => simp [checkFlagLoop] at h
    | reject => exact ih total htot h
    | failure =>
      unfold checkFlagLoop at h
      simp only [show (total == 1) = false by simpa using htot, Bool.false_eq_true,
        if_false] at h
      exact ih total htot h

/-- C4: with `challenge_id` unspecified, when exactly one of the loaded
challenges accepts the submitted flag the scan returns that challenge's
id, whatever the other outcomes; and a validation error is surfaced to the
caller exactly when the collection consisted of a single challenge whose
validator errored — with more than one challenge, errors are only logged
and the scan continues. -/
theorem check_flag_spec (challs : List (String × FlagOutcome)) (id : String) :
    (challs.filter (fun p => p.2 == FlagOutcome.accept) = [(id, FlagOutcome.accept)] →
      check_flag challs = .ok (some id)) ∧
    (∀ e, check_flag challs = .error e ↔ challs = [(e, FlagOutcome.failure)]) := by
  constructor
  · intro hfilter
    apply checkFlagLoop_finds id challs challs.length hfilter
    intro hlen p hp
    obtain ⟨q, hq⟩ := List.length_eq_one.mp hlen
    subst hq
    simp only [List.mem_singleton] at hp
    subst hp
    simp only [List.filter_cons, List.filter_nil] at hfilter
    by_cases hacc : (p.2 == FlagOutcome.accept) = true
    · intro hfail
      rw [hfail] at hacc
      simp at hacc
    · simp [hacc] at hfilter
  · intro e
    constructor
    · intro h
      match hc : challs with
      | [] => simp [check_flag, checkFlagLoop] at h
      | [(i, o)] =>
        cases o with
        | accept => simp [check_flag, checkFlagLoop] at h
        | reject => simp [check_flag, checkFlagLoop] at h
        | failure =>
          simp only [check_flag, List.length_singleton, checkFlagLoop] at h
          simp only [show ((1 : Nat) == 1) = true from rfl, if_true, Except.error.injEq] at h
          rw [h]
      | (p :: q :: rest) =>
        exfalso
        refine checkFlagLoop_no_error e (p :: q :: rest) (p :: q :: rest).length ?_ h
        simp
    · intro h
      subst h
      rfl

/-- Witness for C4: the scan finds the unique accepting challenge among
three, and surfaces the validator error of a singleton scan. -/
theorem check_flag_spec_witness :
    check_flag [("a", .reject), ("b", .accept), ("c", .failure)] = .ok (some "b") ∧
    check_flag [("x", .failure)] = .error "x" :=
  ⟨(check_flag_spec [("a", .reject), ("b", .accept), ("c", .failure)] "b").1 (by decide),
   ((check_flag_spec [("x", .failure)] "x").2 "x").mpr rfl⟩

/-- C1: evaluation of the export safe-pack on a challenge directory whose
top-level compose metadata carries a literal flag.  The sanitized re-emission
is appended, but the loop then falls through to `append_path_with_name`, so
the archive holds two `docker-compose.yml` entries and the second one still
carries the `x-ctf-metadata.flag` field — the compose file is not re-emitted
exactly once with the flag fields cleared. -/
theorem safe_pack_challenge_leaks :
    safe_pack_challenge demoEntries =
      .ok [TarItem.fileData ["docker-compose.yml"] (.composeDoc (sanitizeCompose demoCompose)),
           TarItem.fileData ["docker-compose.yml"] (.composeDoc demoCompose)] ∧
    (sanitizeCompose demoCompose).ctf_metadata = some ⟨none, none, [("name", "Demo")]⟩ ∧
    tarItemLeaksFlag (TarItem.fileData ["docker-compose.yml"] (.composeDoc demoCompose)) = true ∧
    (match safe_pack_challenge demoEntries with
     | .ok items => items.countP (fun it =>
         match it with
         | TarItem.fileData rel _ => rel == ["docker-compose.yml"]
         | TarItem.dirItem _ => false) = 2 ∧ items.any tarItemLeaksFlag = true
     | .error _ => False) := by
  refine ⟨rfl, rfl, rfl, ?_⟩
  constructor <;> rfl

/-- C3 counterexample: when the clone and the removal succeed but the rename
and the copy fallback both fail, `sync_repo` errors with the previous
working tree no longer intact at `dest` — the remove-then-rename sequence
is not all-or-nothing. -/
theorem sync_repo_not_atomic :
    sync_repo renameCopyFailWorld = (.error .ioError, .damaged) ∧
    renameCopyFailWorld.dest = .full 7 ∧
    DestState.damaged ≠ DestState.full 7 := by
  refine ⟨rfl, rfl, by decide⟩

/-- C3 (amended): with `dest/.git` present, the new tree is cloned into a
fresh temporary directory, so a clone failure leaves the previous tree
intact; when the subsequent removal and the rename (or its copy fallback)
succeed the destination holds the complete new tree, and every successful
return ends with the new tree in place — but the replacement removes the
old tree before renaming, so it is not atomic on rename-plus-copy
failure. -/
theorem sync_repo_amended (w : SyncWorld) (hgit : w.destHasGit = true) :
    (w.cloneOk = false → sync_repo w = (.error .cloneFailed, w.dest)) ∧
    (w.cloneOk = true → w.removeOk = true → (w.renameOk = true ∨ w.copyOk = true) →
      sync_repo w = (.ok (), .full w.newTree)) ∧
    (∀ d, sync_repo w = (.ok (), d) → d = .full w.newTree) := by
  refine ⟨?_, ?_, ?_⟩
  · intro hclone
    simp [sync_repo, hgit, hclone]
  · intro hclone hremove hrc
    rcases hrc with hr | hc
    · simp [sync_repo, hgit, hclone, hremove, hr]
    · cases hrn : w.renameOk <;> simp [sync_repo, hgit, hclone, hremove, hrn, hc]
  · intro d h
    unfold sync_repo at h
    rw [hgit] at h
    simp only [if_true] at h
    split at h
    · split at h
      · split at h
        · simp only [Prod.mk.injEq] at h
          exact h.2.symm
        · split at h
          · simp only [Prod.mk.injEq] at h
            exact h.2.symm
          · simp at h
      · simp at h
    · simp at h

/-- Witness for C3 (amended): a failed clone leaves the old tree, a fully
successful run installs the new one. -/
theorem sync_repo_amended_witness :
    sync_repo ⟨true, .full 7, true, false, true, true, true, 9⟩ =
      (.error .cloneFailed, .full 7) ∧
    sync_repo ⟨true, .full 7, true, true, true, true, true, 9⟩ = (.ok (), .full 9) :=
  ⟨(sync_repo_amended ⟨true, .full 7, true, false, true, true, true, 9⟩ rfl).1 rfl,
   (sync_repo_amended ⟨true, .full 7, true, true, true, true, true, 9⟩ rfl).2.1 rfl rfl
     (Or.inl rfl)⟩

/-- C7 counterexample: for the S4 service `web`, the emitted SSHGateway CR
is named `web-22022` with `backend_port` 22, username `ctf`, password `p`
and the derived gateway password, but `backend_service` is the compose
service id `web` — not the proxied service name `web-exposed-ports`
claimed by the specification. -/
theorem as_ssh_gateways_backend_cex :
    deploy_ssh_gateways [("web", webService)] (some "k") (.string "f") "user-a" "ab12cd34ef56" =
      [⟨"web-22022", ⟨"web", 22, "ctf", "p",
        some (get_password (some "k") (.string "f") "user-a" "ab12cd34ef56" "ssh")⟩⟩] ∧
    (∀ gw ∈ deploy_ssh_gateways [("web", webService)] (some "k") (.string "f")
        "user-a" "ab12cd34ef56", gw.spec.backend_service ≠ "web-exposed-ports") := by
  have h : deploy_ssh_gateways [("web", webService)] (some "k") (.string "f")
      "user-a" "ab12cd34ef56" =
      [⟨"web-22022", ⟨"web", 22, "ctf", "p",
        some (get_password (some "k") (.string "f") "user-a" "ab12cd34ef56" "ssh")⟩⟩] := rfl
  refine ⟨h, ?_⟩
  intro gw hgw
  rw [h] at hgw
  simp only [List.mem_singleton] at hgw
  subst hgw
  decide

/-- C7 (amended): for every tcp port marked `ssh` carrying string
`x-username` and `x-password` extensions, translation emits exactly one
SSHGateway CR named `<service>-<published-or-target>` whose backend is the
compose service id (the headless service name) at the container-side
target port, with the declared credentials; `deploy_challenge` passes the
derived `get_password(actor, instance_id, "ssh")` as the gateway
password — for the S4 service the CR is `web-22022` with
`backend_service = "web"`, `backend_port = 22`. -/
theorem as_ssh_gateways_spec :
    (∀ (id user pass : String) (tgt : Nat) (pub : Option Nat) (sshpw : Option String),
      as_ssh_gateways ⟨[⟨tgt, pub, some .tcp, some "ssh",
          [("x-username", .str user), ("x-password", .str pass)]⟩]⟩ id sshpw =
        [⟨id ++ "-" ++ toString (pub.getD tgt), ⟨id, tgt, user, pass, sshpw⟩⟩]) ∧
    (∀ (env_key : Option String) (v : FlagValidator) (actor instance_id : String),
      deploy_ssh_gateways [("web", webService)] env_key v actor instance_id =
        [⟨"web-22022", ⟨"web", 22, "ctf", "p",
          some (get_password env_key v actor instance_id "ssh")⟩⟩]) :=
  ⟨fun _ _ _ _ _ _ => rfl, fun _ _ _ _ => rfl⟩

/-- C8 counterexample: a filename outside the attachment allowlist is
answered with the not-found status, not with invalid-argument, and the
file is not read. -/
theorem retrieve_file_notfound_cex :
    retrieve_file demoRetrieveWorld "rot13" "secret.txt" true 100 =
      (.error (.notFoundStatus ("File " ++ "secret.txt" ++ " not found in challenge " ++
        "rot13")), false) ∧
    (∀ m, (retrieve_file demoRetrieveWorld "rot13" "secret.txt" true 100).1 ≠
      .error (.invalidArgument m)) := by
  have h : retrieve_file demoRetrieveWorld "rot13" "secret.txt" true 100 =
      (.error (.notFoundStatus ("File " ++ "secret.txt" ++ " not found in challenge " ++
        "rot13")), false) := by
    simp [retrieve_file, demoRetrieveWorld, releaseBlocked]
  refine ⟨h, ?_⟩
  intro m
  rw [h]
  simp

/-- C8 (amended): for every RetrieveFile request whose filename is not in
the challenge metadata's attachments list, the call fails without reading
the requested file; when the load, the release gate and the render all
pass, the surfaced status is NotFound (so it is not InvalidArgument). -/
theorem retrieve_file_spec (w : RetrieveWorld) (challenge_id filename : String)
    (require_release : Bool) (now : Nat) (md : RetrieveMeta)
    (hload : w.load_result = .ok md) (hmem : filename ∉ md.attachments) :
    (retrieve_file w challenge_id filename require_release now).2 = false ∧
    (∃ st, (retrieve_file w challenge_id filename require_release now).1 = .error st) ∧
    (releaseBlocked require_release md.release_time now = false → w.render_ok = true →
      (retrieve_file w challenge_id filename require_release now).1 =
        .error (.notFoundStatus ("File " ++ filename ++ " not found in challenge " ++
          challenge_id))) := by
  refine ⟨?_, ?_, ?_⟩
  · simp only [retrieve_file, hload]
    split
    · rfl
    · split
      · simp [hmem]
      · rfl
  · simp only [retrieve_file, hload]
    split
    · exact ⟨_, rfl⟩
    · split
      · simp only [hmem, if_false]
        exact ⟨_, rfl⟩
      · exact ⟨_, rfl⟩
  · intro hrel hrender
    simp only [retrieve_file, hload, hrel, hrender]
    simp [hmem]

/-- Witness for C8 (amended) at the concrete not-found request. -/
theorem retrieve_file_spec_witness :
    (retrieve_file demoRetrieveWorld "rot13" "secret.txt" true 100).2 = false ∧
    (retrieve_file demoRetrieveWorld "rot13" "secret.txt" true 100).1 =
      .error (.notFoundStatus ("File " ++ "secret.txt" ++ " not found in challenge " ++
        "rot13")) :=
  ⟨(retrieve_file_spec demoRetrieveWorld "rot13" "secret.txt" true 100 ⟨["handout.zip"], none⟩
      rfl (by decide)).1,
   (retrieve_file_spec demoRetrieveWorld "rot13" "secret.txt" true 100 ⟨["handout.zip"], none⟩
      rfl (by decide)).2.2 rfl rfl⟩

/-- Component-wise prefixing is the existence of a path extension. -/
theorem pathStartsWith_iff (base p : FsPath) :
    pathStartsWith base p = true ↔ ∃ t, p = base ++ t := by
  induction base generalizing p with
  | nil => simp [pathStartsWith]
  | cons b bs ih =>
    cases p with
    | nil => simp [pathStartsWith]
    | cons x xs =>
      simp only [pathStartsWith, Bool.and_eq_true, beq_iff_eq, ih, List.cons_append,
        List.cons.injEq]
      constructor
      · rintro ⟨hb, t, ht⟩
        exact ⟨t, hb.symm, ht⟩
      · rintro ⟨t, hb, ht⟩
        exact ⟨hb.symm, t, ht⟩

theorem pathStartsWith_self_append (l t : FsPath) : pathStartsWith l (l ++ t) = true :=
  (pathStartsWith_iff l (l ++ t)).mpr ⟨t, rfl⟩

theorem pathStartsWith_trans {a b c : FsPath} (h1 : pathStartsWith a b = true)
    (h2 : pathStartsWith b c = true) : pathStartsWith a c = true := by
  obtain ⟨t1, rfl⟩ := (pathStartsWith_iff a b).mp h1
  obtain ⟨t2, rfl⟩ := (pathStartsWith_iff _ _).mp h2
  exact (pathStartsWith_iff _ _).mpr ⟨t1 ++ t2, by simp⟩

/-- Containment of every effect of the walk: writes stay under the
destination directory, reads stay under the canonical source root. -/
theorem renderGo_contained (fs : Fs) :
    ∀ (fuel : Nat) (src dst : FsPath) (names : List String),
      ∀ eff ∈ (renderGo fs fuel src dst names).1,
        (∀ q, effWriteTarget eff = some q → pathStartsWith dst q = true) ∧
        (∀ q, effReadSource eff = some q →
          pathStartsWith (fs.canon src) (fs.canon q) = true) := by
  intro fuel
  induction fuel with
  | zero =>
    intro src dst names eff h
    simp [renderGo] at h
  | succ fuel ih =>
    intro src dst names
    cases names with
    | nil => intro eff h; simp [renderGo] at h
    | cons name rest =>
      intro eff h
      simp only [renderGo] at h
      split at h
      case isFalse => simp at h
      case isTrue hcond =>
        have hmkdir :
            (∀ q, effWriteTarget (RenderEff.mkdirAll (dst ++ [name])) = some q →
              pathStartsWith dst q = true) ∧
            (∀ q, effReadSource (RenderEff.mkdirAll (dst ++ [name])) = some q →
              pathStartsWith (fs.canon src) (fs.canon q) = true) := by
          refine ⟨?_, ?_⟩
          · intro q hq
            simp only [effWriteTarget, Option.some.injEq] at hq
            subst hq
            exact pathStartsWith_self_append dst [name]
          · intro q hq
            simp [effReadSource] at hq
        have hsub : ∀ e ∈ (renderGo fs fuel (src ++ [name]) (dst ++ [name])
            (fs.children (src ++ [name]))).1,
            (∀ q, effWriteTarget e = some q → pathStartsWith dst q = true) ∧
            (∀ q, effReadSource e = some q →
              pathStartsWith (fs.canon src) (fs.canon q) = true) := by
          intro e he
          rcases ih (src ++ [name]) (dst ++ [name]) (fs.children (src ++ [name])) e he with
            ⟨hw, hr⟩
          refine ⟨?_, ?_⟩
          · intro q hq
            exact pathStartsWith_trans (pathStartsWith_self_append dst [name]) (hw q hq)
          · intro q hq
            exact pathStartsWith_trans hcond (hr q hq)
        split at h
        case isTrue => exact ih src dst rest eff h
        case isFalse =>
          split at h
          case h_1 =>
            -- directory entry: mkdir, recurse into it, then the rest
            split at h
            case h_1 effs e heq =>
              simp only [List.mem_cons] at h
              rcases h with h | h
              · rw [h]; exact hmkdir
              · exact hsub eff (by rw [heq]; exact h)
            case h_2 effs heq =>
              simp only [List.mem_cons, List.mem_append] at h
              rcases h with (h | h) | h
              · rw [h]; exact hmkdir
              · exact hsub eff (by rw [heq]; exact h)
              · exact ih src dst rest eff h
          case h_2 =>
            -- file entry: template render or byte copy
            split at h
            case isTrue =>
              split at h
              case isTrue =>
                simp only [List.mem_cons] at h
                rcases h with rfl | rfl | h
                · refine ⟨?_, ?_⟩
                  · intro q hq
                    simp [effWriteTarget] at hq
                  · intro q hq
                    simp only [effReadSource, Option.some.injEq] at hq
                    subst hq
                    exact hcond
                · refine ⟨?_, ?_⟩
                  · intro q hq
                    simp only [effWriteTarget, Option.some.injEq] at hq
                    subst hq
                    exact pathStartsWith_self_append dst [dropExtension name]
                  · intro q hq
                    simp [effReadSource] at hq
                · exact ih src dst rest eff h
              case isFalse =>
                simp only [List.mem_singleton] at h
                subst h
                refine ⟨?_, ?_⟩
                · intro q hq
                  simp [effWriteTarget] at hq
                · intro q hq
                  simp only [effReadSource, Option.some.injEq] at hq
                  subst hq
                  exact hcond
            case isFalse =>
              simp only [List.mem_cons] at h
              rcases h with rfl | h
              · refine ⟨?_, ?_⟩
                · intro q hq
                  simp only [effWriteTarget, Option.some.injEq] at hq
                  subst hq
                  exact pathStartsWith_self_append dst [name]
                · intro q hq
                  simp only [effReadSource, Option.some.injEq] at hq
                  subst hq
                  exact hcond
              · exact ih src dst rest eff h
          case h_3 => exact ih src dst rest eff h

/-- C2: rendering is contained — every effect of `render_dir_recursively`
writes only beneath the destination directory and reads only paths whose
canonicalization starts with the canonical source root; and an entry whose
canonicalization escapes the source root stops the walk with the
path-traversal error before any effect on that entry. -/
theorem render_dir_recursively_containment (fs : Fs) (fuel : Nat) (src dst : FsPath) :
    (∀ eff ∈ (render_dir_recursively fs fuel src dst).1,
      (∀ q, effWriteTarget eff = some q → pathStartsWith dst q = true) ∧
      (∀ q, effReadSource eff = some q →
        pathStartsWith (fs.canon src) (fs.canon q) = true)) ∧
    (∀ name rest, pathStartsWith (fs.canon src) (fs.canon (src ++ [name])) = false →
      renderGo fs (fuel + 1) src dst (name :: rest) = ([], some .pathEscape)) := by
  constructor
  · exact renderGo_contained fs fuel src dst (fs.children src)
  · intro name rest hesc
    simp [renderGo, hesc]

/-- Witness for C2: a mirrored subdirectory is created inside the
destination, and a symlink whose canonical path lies outside the source
root aborts the walk with the path-traversal error. -/
theorem render_dir_recursively_containment_witness :
    pathStartsWith ["d"] ["d", "x"] = true ∧
    renderGo escFs 1 ["s"] ["d"] ["evil"] = ([], some RenderErr.pathEscape) :=
  ⟨((render_dir_recursively_containment plainFs 2 ["s"] ["d"]).1
      (RenderEff.mkdirAll ["d", "x"]) (by decide)).1 ["d", "x"] rfl,
   (render_dir_recursively_containment escFs 0 ["s"] ["d"]).2 "evil" [] (by decide)⟩

end Plfanzen
